import Mathlib

/-!
# Verification of the SMA-crossover trading bot core

Shallow embedding of `src/main.py` (class `BinanceTestnetBot`):

* numeric values (Python floats holding prices, balances, quantities) are
  modelled as exact rationals `ℚ`;
* a pandas column with `NaN` entries is modelled as `Option ℚ` (`none` = NaN),
  and pandas comparisons against `NaN`, which are `False`, as `oLt` / `oGt`;
* fallible exchange calls are passed in explicitly: a call whose
  `BinanceAPIException` handler returns `None` / `{}` is an `Option` /
  `Except Unit` argument;
* Python `int()` (truncation toward zero) is `pyTrunc`;
* Python `dict` built by repeated assignment is an association list whose
  lookup takes the last binding (`dictFind`).
-/

namespace TradingBot

/-- Python `int()` applied to an exact rational: truncation toward zero. -/
def pyTrunc (q : ℚ) : ℤ := if 0 ≤ q then ⌊q⌋ else ⌈q⌉

/-- One entry of `symbol_info['filters']` as used by
`calculate_position_size` (src/main.py:135-138): only the filter type and
the step size are read. -/
structure SymbolFilter where
  filterType : String
  stepSize : ℚ
deriving DecidableEq

/-- The `for filter in symbol_info['filters']` loop of
`calculate_position_size` (src/main.py:133-138): the step size of the first
`LOT_SIZE` filter, with default `0.00001` when none is present. -/
def findStepSize : List SymbolFilter → ℚ
  | [] => 1 / 100000
  | f :: rest => if f.filterType = "LOT_SIZE" then f.stepSize else findStepSize rest

/-- `calculate_position_size` (src/main.py:127-144).  The price returned by
`self.get_symbol_price()` is passed explicitly: `none` models a failed fetch
(the exception is caught inside `get_symbol_price`, which returns `None`).
`if price:` is Python truthiness — false for `None` and for `0.0`. -/
def calculate_position_size (price : Option ℚ) (filters : List SymbolFilter)
    (usdt_amount : ℚ) : ℚ :=
  match price with
  | none => 0
  | some p =>
    if p = 0 then 0
    else
      let step_size := findStepSize filters
      let quantity := usdt_amount / p
      (pyTrunc (quantity / step_size) : ℚ) * step_size

/-- One row of the indicator DataFrame restricted to the two columns that
`generate_signal` reads; `none` models a pandas `NaN`. -/
structure Snapshot where
  sma20 : Option ℚ
  sma50 : Option ℚ
deriving DecidableEq

/-- Pandas `<` on two possibly-NaN values: any comparison with `NaN` is
`False`. -/
def oLt : Option ℚ → Option ℚ → Bool
  | some a, some b => decide (a < b)
  | _, _ => false

/-- Pandas `>` on two possibly-NaN values: any comparison with `NaN` is
`False`. -/
def oGt : Option ℚ → Option ℚ → Bool
  | some a, some b => decide (b < a)
  | _, _ => false

/-- `df['close'].rolling(window=W).mean()` at row index `i`
(src/main.py:82,85): the mean of the `W` closes ending at index `i`, `NaN`
(`none`) while fewer than `W` observations are in the window. -/
def rollingMean (W : ℕ) (closes : List ℚ) (i : ℕ) : Option ℚ :=
  if W ≤ i + 1 then some (((closes.drop (i + 1 - W)).take W).sum / (W : ℚ)) else none

/-- `calculate_indicators` (src/main.py:59-91), restricted to the columns
`generate_signal` reads: the DataFrame rows, each carrying the SMA20 and
SMA50 rolling means of the close column. -/
def calculate_indicators (closes : List ℚ) : List Snapshot :=
  (List.range closes.length).map fun i => ⟨rollingMean 20 closes i, rollingMean 50 closes i⟩

/-- `generate_signal` (src/main.py:93-110).  `none` models `df is None`;
`iloc[-2]` / `iloc[-1]` are the rows at `len - 2` / `len - 1`. -/
def generate_signal (df : Option (List Snapshot)) : ℤ :=
  match df with
  | none => 0
  | some rows =>
    if rows.length < 50 then 0
    else
      let prev := rows.getD (rows.length - 2) ⟨none, none⟩
      let curr := rows.getD (rows.length - 1) ⟨none, none⟩
      if oLt prev.sma20 prev.sma50 && oGt curr.sma20 curr.sma50 then 1
      else if oGt prev.sma20 prev.sma50 && oLt curr.sma20 curr.sma50 then -1
      else 0

/-- One entry of the raw `account['balances']` list
(src/main.py:39-44). -/
structure RawBalance where
  asset : String
  free : ℚ
  locked : ℚ
deriving DecidableEq

/-- `get_account_balance` (src/main.py:34-48): keeps the balances whose free
or locked amount is strictly positive; a `BinanceAPIException` is caught and
yields the empty mapping. -/
def get_account_balance (response : Except Unit (List RawBalance)) : List RawBalance :=
  match response with
  | .error _ => []
  | .ok bs => bs.filter fun b => 0 < b.free || 0 < b.locked

/-- Lookup in the Python dict built by `get_account_balance`: repeated
assignment means a later entry for the same asset overwrites an earlier
one. -/
def dictFind (balances : List RawBalance) (asset : String) : Option RawBalance :=
  balances.foldl (fun acc b => if b.asset = asset then some b else acc) none

/-- `balances.get(asset, {}).get('free', 0)` (src/main.py:167,178): an asset
absent from the mapping reads as a free balance of `0`. -/
def getFree (balances : List RawBalance) (asset : String) : ℚ :=
  match dictFind balances asset with
  | some b => b.free
  | none => 0

/-- Observable effects of the signal branch of the main loop: log lines
emitted at src/main.py:171,174,180,183,186. -/
inductive LogMsg
  | buySignal (quantity : ℚ) (symbol : String)
  | insufficientUsdt
  | sellSignal (quantity : ℚ) (symbol : String)
  | noBalanceToSell (base : String)
  | noSignal
deriving DecidableEq

/-- An observable action of one pass through the signal branch: a log line
or a `place_order` call. -/
inductive Action
  | log (m : LogMsg)
  | order (side : String) (quantity : ℚ)
deriving DecidableEq

/-- The signal branch of `run_bot` (src/main.py:166-186), as the ordered
list of observable actions of one cycle.  `price` and `filters` are what
`calculate_position_size` obtains from the exchange when it is called. -/
def trade_step (signal : ℤ) (balances : List RawBalance) (symbol : String)
    (trade_amount : ℚ) (price : Option ℚ) (filters : List SymbolFilter) : List Action :=
  if signal = 1 then
    let usdt_balance := getFree balances "USDT"
    if trade_amount ≤ usdt_balance then
      let quantity := calculate_position_size price filters trade_amount
      if 0 < quantity then
        [.log (.buySignal quantity symbol), .order "BUY" quantity]
      else []
    else [.log .insufficientUsdt]
  else if signal = -1 then
    let base_currency := symbol.replace "USDT" ""
    let base_balance := getFree balances base_currency
    if 0 < base_balance then
      [.log (.sellSignal base_balance symbol), .order "SELL" base_balance]
    else [.log (.noBalanceToSell base_currency)]
  else [.log .noSignal]

/-- The exchange responses one iteration of the `while True` loop of
`run_bot` observes.  `price = none` models `get_symbol_price` failing (its
handler returns `None`); `closes = none` models `calculate_indicators`
failing (its handler returns `None`); `sizingPrice` is the price at the
later `get_symbol_price` call inside `calculate_position_size`. -/
structure CycleEnv where
  accountOk : Bool
  rawBalances : List RawBalance
  price : Option ℚ
  closes : Option (List ℚ)
  sizingPrice : Option ℚ
  filters : List SymbolFilter

/-- Outcome of one iteration of the `while True` loop: either the loop
reaches `time.sleep` and continues with the (possibly updated) local
`signal`, or an exception escapes the `except` block and `run_bot`
terminates. -/
inductive CycleResult
  | next (signalVar : Option ℤ) (actions : List Action) (errorLogged : Bool)
      (staleSignalLogged : Option ℤ) (slept : Bool)
  | crash (errorLogged : Bool) (slept : Bool)
deriving DecidableEq

/-- One iteration of the `while True` loop of `run_bot`
(src/main.py:152-193).  `signalVar` is the Python local `signal`: `none`
while it has never been assigned.  When `get_symbol_price` returned `None`,
the f-string `f"Current price: ${current_price:.2f}"` (line 158) raises
`TypeError`; the handler logs the error (line 191) and then evaluates
`signal` (line 192) — an `UnboundLocalError` when `signal` was never
assigned, which escapes the loop (`crash`); otherwise the stale value is
logged, the handler sleeps and the loop continues. -/
def run_cycle (signalVar : Option ℤ) (env : CycleEnv) (symbol : String)
    (trade_amount : ℚ) : CycleResult :=
  let balances := get_account_balance
    (if env.accountOk then Except.ok env.rawBalances else Except.error ())
  match env.price with
  | none =>
    match signalVar with
    | none => .crash true false
    | some s => .next (some s) [] true (some s) true
  | some _ =>
    match env.closes with
    | none => .next signalVar [] false none true
    | some closes =>
      let signal := generate_signal (some (calculate_indicators closes))
      .next (some signal)
        (trade_step signal balances symbol trade_amount env.sizingPrice env.filters)
        false none true

/-! ## Helper lemmas -/

theorem pyTrunc_of_nonneg {q : ℚ} (h : 0 ≤ q) : pyTrunc q = ⌊q⌋ := if_pos h

theorem pyTrunc_intCast (k : ℤ) : pyTrunc (k : ℚ) = k := by
  unfold pyTrunc
  split <;> simp

theorem findStepSize_single (S : ℚ) : findStepSize [⟨"LOT_SIZE", S⟩] = S := by
  simp [findStepSize]

theorem dictFind_absent (bal : List RawBalance) (a : String)
    (h : ∀ b ∈ bal, b.asset ≠ a) : dictFind bal a = none := by
  unfold dictFind
  induction bal with
  | nil => rfl
  | cons x xs ih =>
    simp only [List.foldl_cons]
    rw [if_neg (h x (by simp))]
    exact ih fun b hb => h b (List.mem_cons_of_mem _ hb)

theorem getFree_of_absent (bal : List RawBalance) (a : String)
    (h : ∀ b ∈ bal, b.asset ≠ a) : getFree bal a = 0 := by
  unfold getFree
  rw [dictFind_absent bal a h]

/-! ## C3 -/

/-- C3: for absent data (`df is None`) and for every row sequence — in
particular every indicator series derived from a candle sequence — of
length strictly below 50, `generate_signal` returns Hold (`0`), whatever
the rows contain. -/
theorem generate_signal_short_history :
    generate_signal none = 0 ∧
    (∀ rows : List Snapshot, rows.length < 50 → generate_signal (some rows) = 0) ∧
    (∀ closes : List ℚ, closes.length < 50 →
      generate_signal (some (calculate_indicators closes)) = 0) := by
  refine ⟨rfl, ?_, ?_⟩
  · intro rows h
    simp [generate_signal, h]
  · intro closes h
    have hlen : (calculate_indicators closes).length = closes.length := by
      simp [calculate_indicators]
    simp [generate_signal, hlen, h]

/-- Witness for C3 at concrete inputs. -/
theorem generate_signal_short_history_witness :
    generate_signal none = 0 ∧ generate_signal (some []) = 0 ∧
    generate_signal (some (calculate_indicators [(1 : ℚ), 2, 3])) = 0 :=
  ⟨generate_signal_short_history.1,
   generate_signal_short_history.2.1 [] (by decide),
   generate_signal_short_history.2.2 [(1 : ℚ), 2, 3] (by decide)⟩

/-! ## C4 -/

/-- C4 counterexample: at notional `N = -1`, price `P = 2`, step `S = 1`
the code returns `0` (Python `int()` truncates toward zero, not down), while
`⌊(N / P) / S⌋ * S = -1`; in particular the claimed bound
`quantity * P ≤ N` fails. -/
theorem calculate_position_size_neg_notional_cex :
    calculate_position_size (some 2) [⟨"LOT_SIZE", 1⟩] (-1) = 0 ∧
    (⌊((-1 : ℚ) / 2) / 1⌋ : ℚ) * 1 = -1 ∧
    ¬ calculate_position_size (some 2) [⟨"LOT_SIZE", 1⟩] (-1) * 2 ≤ (-1 : ℚ) := by
  have h : calculate_position_size (some 2) [⟨"LOT_SIZE", 1⟩] (-1) = 0 := by
    simp only [calculate_position_size, findStepSize_single, pyTrunc]
    norm_num
  refine ⟨h, by norm_num, ?_⟩
  rw [h]
  norm_num

/-- C4 (amended): for every notional `N ≥ 0`, price `P > 0` and step size
`S > 0`, the position sizer returns `⌊(N / P) / S⌋ * S`, a non-negative
exact multiple of `S` with `quantity * P ≤ N`.  (For negative notional the
code truncates toward zero instead of flooring, so the restriction
`N ≥ 0` is necessary.) -/
theorem calculate_position_size_spec (N P S : ℚ) (hN : 0 ≤ N) (hP : 0 < P) (hS : 0 < S) :
    calculate_position_size (some P) [⟨"LOT_SIZE", S⟩] N = (⌊(N / P) / S⌋ : ℚ) * S ∧
    (∃ k : ℤ, calculate_position_size (some P) [⟨"LOT_SIZE", S⟩] N = (k : ℚ) * S) ∧
    0 ≤ calculate_position_size (some P) [⟨"LOT_SIZE", S⟩] N ∧
    calculate_position_size (some P) [⟨"LOT_SIZE", S⟩] N * P ≤ N := by
  have hP0 : P ≠ 0 := ne_of_gt hP
  have hx : (0 : ℚ) ≤ (N / P) / S := div_nonneg (div_nonneg hN hP.le) hS.le
  have hmain : calculate_position_size (some P) [⟨"LOT_SIZE", S⟩] N
      = (⌊(N / P) / S⌋ : ℚ) * S := by
    simp only [calculate_position_size, findStepSize_single, if_neg hP0]
    rw [pyTrunc_of_nonneg hx]
  refine ⟨hmain, ⟨⌊(N / P) / S⌋, hmain⟩, ?_, ?_⟩
  · rw [hmain]
    have h0 : (0 : ℚ) ≤ (⌊(N / P) / S⌋ : ℚ) := by
      exact_mod_cast Int.floor_nonneg.mpr hx
    exact mul_nonneg h0 hS.le
  · rw [hmain]
    have h1 : (⌊(N / P) / S⌋ : ℚ) * S ≤ ((N / P) / S) * S :=
      mul_le_mul_of_nonneg_right (Int.floor_le _) hS.le
    have h2 : ((N / P) / S) * S = N / P := div_mul_cancel₀ _ (ne_of_gt hS)
    have h3 : (⌊(N / P) / S⌋ : ℚ) * S ≤ N / P := by rw [h2] at h1; exact h1
    calc (⌊(N / P) / S⌋ : ℚ) * S * P ≤ (N / P) * P :=
          mul_le_mul_of_nonneg_right h3 hP.le
      _ = N := div_mul_cancel₀ _ hP0

/-- Witness for C4's amended theorem at `N = 100`, `P = 2`, `S = 1`. -/
theorem calculate_position_size_spec_witness :
    calculate_position_size (some 2) [⟨"LOT_SIZE", 1⟩] 100 = (⌊((100 : ℚ) / 2) / 1⌋ : ℚ) * 1 ∧
    (∃ k : ℤ, calculate_position_size (some 2) [⟨"LOT_SIZE", 1⟩] 100 = (k : ℚ) * 1) ∧
    0 ≤ calculate_position_size (some 2) [⟨"LOT_SIZE", 1⟩] 100 ∧
    calculate_position_size (some 2) [⟨"LOT_SIZE", 1⟩] 100 * 2 ≤ 100 :=
  calculate_position_size_spec 100 2 1 (by norm_num) (by norm_num) (by norm_num)

/-! ## C9 -/

/-- C9: quantization is idempotent — for any quantity `q` that is already an
exact integer multiple of the step size `S > 0`, truncating `q / S` and
re-multiplying by `S` returns `q`; equivalently, re-sizing the notional
`q * P` at any price `P ≠ 0` returns `q` unchanged. -/
theorem position_size_requantize_idempotent (S q : ℚ) (k : ℤ) (P : ℚ)
    (hS : 0 < S) (hq : q = (k : ℚ) * S) (hP : P ≠ 0) :
    (pyTrunc (q / S) : ℚ) * S = q ∧
    calculate_position_size (some P) [⟨"LOT_SIZE", S⟩] (q * P) = q := by
  have hS0 : S ≠ 0 := ne_of_gt hS
  have h1 : q / S = (k : ℚ) := by
    rw [hq, mul_div_cancel_right₀ _ hS0]
  have h2 : (pyTrunc (q / S) : ℚ) * S = q := by
    rw [h1, pyTrunc_intCast, ← hq]
  refine ⟨h2, ?_⟩
  simp only [calculate_position_size, findStepSize_single, if_neg hP]
  rw [mul_div_cancel_right₀ _ hP, h2]

/-- Witness for C9 at `S = 1/2`, `q = 3/2 = 3 * S`, `P = 4`. -/
theorem position_size_requantize_idempotent_witness :
    (pyTrunc ((3 / 2 : ℚ) / (1 / 2)) : ℚ) * (1 / 2) = 3 / 2 ∧
    calculate_position_size (some 4) [⟨"LOT_SIZE", 1 / 2⟩] ((3 / 2) * 4) = 3 / 2 :=
  position_size_requantize_idempotent (1 / 2) (3 / 2) 3 4 (by norm_num) (by norm_num)
    (by norm_num)

/-! ## Rolling-mean lemmas (for C8 and C1) -/

theorem calculate_indicators_length (closes : List ℚ) :
    (calculate_indicators closes).length = closes.length := by
  simp [calculate_indicators]

theorem calculate_indicators_getD (closes : List ℚ) (i : ℕ) (h : i < closes.length)
    (d : Snapshot) :
    (calculate_indicators closes).getD i d
      = ⟨rollingMean 20 closes i, rollingMean 50 closes i⟩ := by
  have h1 : (List.range closes.length)[i]? = some i := List.getElem?_range h
  simp [calculate_indicators, h1]

theorem sum_take_eq (t : List ℚ) (W : ℕ) (h : W ≤ t.length) :
    (t.take W).sum = ∑ k ∈ Finset.range W, t.getD k 0 := by
  induction W with
  | zero => simp
  | succ n ih =>
    have hn : n < t.length := lt_of_lt_of_le (Nat.lt_succ_self n) h
    rw [List.sum_take_succ t n hn, Finset.sum_range_succ, ih (le_of_lt hn),
      List.getD_eq_getElem?_getD, List.getElem?_eq_getElem hn]
    rfl

theorem sum_slice (l : List ℚ) (m W : ℕ) (h : m + W ≤ l.length) :
    ((l.drop m).take W).sum = ∑ k ∈ Finset.range W, l.getD (m + k) 0 := by
  rw [sum_take_eq (l.drop m) W (by simp; omega)]
  refine Finset.sum_congr rfl fun k _ => ?_
  rw [List.getD_eq_getElem?_getD, List.getD_eq_getElem?_getD, List.getElem?_drop]

theorem rollingMean_of_le {W i : ℕ} (closes : List ℚ) (hW : W ≤ i + 1)
    (hi : i < closes.length) :
    rollingMean W closes i
      = some ((∑ k ∈ Finset.range W, closes.getD (i + 1 - W + k) 0) / (W : ℚ)) := by
  unfold rollingMean
  rw [if_pos hW, sum_slice closes (i + 1 - W) W (by omega)]

theorem rollingMean_of_lt {W i : ℕ} (closes : List ℚ) (h : i + 1 < W) :
    rollingMean W closes i = none := by
  unfold rollingMean
  exact if_neg (by omega)

theorem rollingMean_take (W : ℕ) (closes : List ℚ) (i : ℕ) :
    rollingMean W (closes.take (i + 1)) i = rollingMean W closes i := by
  unfold rollingMean
  split
  · rw [List.drop_take, show i + 1 - (i + 1 - W) = W from by omega, List.take_take,
      min_self]
  · rfl

theorem rollingMean_some_le {W i : ℕ} {closes : List ℚ} {x : ℚ}
    (h : rollingMean W closes i = some x) : W ≤ i + 1 := by
  by_contra hc
  unfold rollingMean at h
  rw [if_neg hc] at h
  exact Option.noConfusion h

/-! ## C8 -/

/-- C8: for every candle close sequence, index `i` inside the sequence and
window size `W > 0`, the rolling mean at `i` is the arithmetic mean of the
`W` closes at indices `i - W + 1 .. i` once `W` observations exist
(`W ≤ i + 1`), is undefined (`none`) at indices with insufficient history
(`i + 1 < W`), and uses only candles at or before index `i` (truncating the
series after `i` does not change it); the indicator engine fills its SMA20
and SMA50 columns with exactly these rolling means. -/
theorem calculate_indicators_sma (closes : List ℚ) (i : ℕ) (hi : i < closes.length) :
    (∀ W : ℕ, 0 < W →
      (W ≤ i + 1 → rollingMean W closes i
        = some ((∑ k ∈ Finset.range W, closes.getD (i + 1 - W + k) 0) / (W : ℚ)))
      ∧ (i + 1 < W → rollingMean W closes i = none)
      ∧ rollingMean W (closes.take (i + 1)) i = rollingMean W closes i) ∧
    (calculate_indicators closes).getD i ⟨none, none⟩
      = ⟨rollingMean 20 closes i, rollingMean 50 closes i⟩ := by
  refine ⟨fun W _ => ⟨fun h => rollingMean_of_le closes h hi,
    fun h => rollingMean_of_lt closes h, rollingMean_take W closes i⟩,
    calculate_indicators_getD closes i hi _⟩

/-- Witness for C8: 50 candles all closing at `1`, index `49`, window `50`. -/
theorem calculate_indicators_sma_witness :
    rollingMean 50 (List.replicate 50 (1 : ℚ)) 49
      = some ((∑ k ∈ Finset.range 50,
          (List.replicate 50 (1 : ℚ)).getD (49 + 1 - 50 + k) 0) / (50 : ℚ)) :=
  ((calculate_indicators_sma (List.replicate 50 (1 : ℚ)) 49 (by simp)).1 50
    (by norm_num)).1 (by norm_num)

/-! ## C1 -/

theorem generate_signal_spec (rows : List Snapshot) (ps pl cs cl : ℚ)
    (hlen : 50 ≤ rows.length)
    (hps : (rows.getD (rows.length - 2) ⟨none, none⟩).sma20 = some ps)
    (hpl : (rows.getD (rows.length - 2) ⟨none, none⟩).sma50 = some pl)
    (hcs : (rows.getD (rows.length - 1) ⟨none, none⟩).sma20 = some cs)
    (hcl : (rows.getD (rows.length - 1) ⟨none, none⟩).sma50 = some cl) :
    (generate_signal (some rows) = 1 ↔ ps < pl ∧ cl < cs) ∧
    (generate_signal (some rows) = -1 ↔ pl < ps ∧ cs < cl) ∧
    (generate_signal (some rows) = 0 ↔
      ¬(ps < pl ∧ cl < cs) ∧ ¬(pl < ps ∧ cs < cl)) := by
  have hguard : ¬ rows.length < 50 := not_lt.mpr hlen
  have e : generate_signal (some rows)
      = (if ps < pl ∧ cl < cs then 1 else if pl < ps ∧ cs < cl then -1 else 0 : ℤ) := by
    simp only [generate_signal]
    rw [if_neg hguard]
    rw [hps, hpl, hcs, hcl]
    simp only [oLt, oGt, Bool.and_eq_true, decide_eq_true_eq]
  rw [e]
  by_cases hb1 : ps < pl ∧ cl < cs
  · have hb2 : ¬(pl < ps ∧ cs < cl) := fun h => absurd h.1 (lt_asymm hb1.1)
    rw [if_pos hb1]
    exact ⟨by simp [hb1], ⟨fun h => absurd h (by decide), fun h => absurd h hb2⟩,
      fun h => absurd h (by decide), fun h => absurd hb1 h.1⟩
  · rw [if_neg hb1]
    by_cases hb2 : pl < ps ∧ cs < cl
    · rw [if_pos hb2]
      exact ⟨⟨fun h => absurd h (by decide), fun h => absurd h hb1⟩,
        by simp [hb2], fun h => absurd h (by decide), fun h => absurd hb2 h.2⟩
    · rw [if_neg hb2]
      exact ⟨⟨fun h => absurd h (by decide), fun h => absurd h hb1⟩,
        ⟨fun h => absurd h (by decide), fun h => absurd h hb2⟩,
        fun _ => ⟨hb1, hb2⟩, fun _ => rfl⟩

/-- C1: for every indicator series produced by the indicator engine whose
last two rows carry defined short and long averages, `generate_signal`
returns Buy (`1`) exactly when the previous short average is strictly below
the previous long average and the current short average is strictly above
the current long average; Sell (`-1`) exactly in the mirrored strict case;
and Hold (`0`) in every other case — so equality at either point never
counts as a crossover. -/
theorem generate_signal_crossover (closes : List ℚ) (ps pl cs cl : ℚ)
    (hps : ((calculate_indicators closes).getD
      ((calculate_indicators closes).length - 2) ⟨none, none⟩).sma20 = some ps)
    (hpl : ((calculate_indicators closes).getD
      ((calculate_indicators closes).length - 2) ⟨none, none⟩).sma50 = some pl)
    (hcs : ((calculate_indicators closes).getD
      ((calculate_indicators closes).length - 1) ⟨none, none⟩).sma20 = some cs)
    (hcl : ((calculate_indicators closes).getD
      ((calculate_indicators closes).length - 1) ⟨none, none⟩).sma50 = some cl) :
    (generate_signal (some (calculate_indicators closes)) = 1 ↔ ps < pl ∧ cl < cs) ∧
    (generate_signal (some (calculate_indicators closes)) = -1 ↔ pl < ps ∧ cs < cl) ∧
    (generate_signal (some (calculate_indicators closes)) = 0 ↔
      ¬(ps < pl ∧ cl < cs) ∧ ¬(pl < ps ∧ cs < cl)) := by
  have hlen : (calculate_indicators closes).length = closes.length :=
    calculate_indicators_length closes
  rcases Nat.eq_zero_or_pos closes.length with h0 | hpos
  · exfalso
    have hnil : calculate_indicators closes = [] :=
      List.length_eq_zero.mp (hlen.trans h0)
    rw [hnil] at hpl
    exact Option.noConfusion hpl
  · have h2 : closes.length - 2 < closes.length := by omega
    have hpl' := hpl
    rw [hlen, calculate_indicators_getD closes _ h2] at hpl'
    have h50 : 50 ≤ closes.length - 2 + 1 := rollingMean_some_le hpl'
    exact generate_signal_spec (calculate_indicators closes) ps pl cs cl
      (by omega) hps hpl hcs hcl

/-- Witness for C1: 51 candles all closing at `0` — both averages defined
and equal at the last two rows, hence Hold. -/
theorem generate_signal_crossover_witness :
    generate_signal (some (calculate_indicators (List.replicate 51 (0 : ℚ)))) = 0 := by
  have hidx : (calculate_indicators (List.replicate 51 (0 : ℚ))).length - 2 = 49 := by
    simp [calculate_indicators]
  have hidx' : (calculate_indicators (List.replicate 51 (0 : ℚ))).length - 1 = 50 := by
    simp [calculate_indicators]
  have h49 := calculate_indicators_getD (List.replicate 51 (0 : ℚ)) 49 (by simp)
    (⟨none, none⟩ : Snapshot)
  have h50 := calculate_indicators_getD (List.replicate 51 (0 : ℚ)) 50 (by simp)
    (⟨none, none⟩ : Snapshot)
  refine (generate_signal_crossover (List.replicate 51 (0 : ℚ)) 0 0 0 0
    ?_ ?_ ?_ ?_).2.2.mpr ⟨by simp, by simp⟩
  · rw [hidx, h49]; simp [rollingMean]
  · rw [hidx, h49]; simp [rollingMean]
  · rw [hidx', h50]; simp [rollingMean]
  · rw [hidx', h50]; simp [rollingMean]

/-! ## C5 -/

/-- C5 counterexample: Buy signal, free USDT `150 ≥` trade amount `100`,
price unavailable (`none`): sizing returns `0` and the loop skips the order,
but it performs **no** action at all — in particular no skip reason is
logged for the zero quantity, contrary to the claim. -/
theorem zero_price_no_skip_log_cex :
    calculate_position_size none [] (100 : ℚ) = 0 ∧
    trade_step 1 [⟨"USDT", 150, 0⟩] "BTCUSDT" 100 none [] = [] := by
  constructor
  · rfl
  · have hfree : getFree [⟨"USDT", 150, 0⟩] "USDT" = 150 := rfl
    simp only [trade_step, if_pos rfl, hfree]
    norm_num
    intro h
    exact absurd h (by norm_num [calculate_position_size])

/-- C5 (amended): whenever the current price is zero or unavailable,
`calculate_position_size` returns quantity `0`, and on a Buy signal with
sufficient balance the loop skips order placement for that cycle silently —
the zero-quantity branch emits no order and no log line. -/
theorem zero_price_skips_silently (fs : List SymbolFilter) (N : ℚ)
    (bal : List RawBalance) (amt : ℚ) (sym : String) (price : Option ℚ)
    (hp : price = none ∨ price = some 0) (hbal : amt ≤ getFree bal "USDT") :
    calculate_position_size price fs N = 0 ∧ trade_step 1 bal sym amt price fs = [] := by
  have hzero : ∀ M : ℚ, calculate_position_size price fs M = 0 := by
    intro M
    rcases hp with h | h <;> subst h <;> simp [calculate_position_size]
  refine ⟨hzero N, ?_⟩
  simp [trade_step, hbal, hzero amt]

/-- Witness for C5's amended theorem. -/
theorem zero_price_skips_silently_witness :
    calculate_position_size none [] (100 : ℚ) = 0 ∧
    trade_step 1 [⟨"USDT", 200, 0⟩] "BTCUSDT" 100 none [] = [] :=
  zero_price_skips_silently [] 100 [⟨"USDT", 200, 0⟩] 100 "BTCUSDT" none
    (Or.inl rfl) (by rw [show getFree [⟨"USDT", 200, 0⟩] "USDT" = 200 from rfl]; norm_num)

/-! ## C6 -/

/-- C6 counterexample: Buy signal with free USDT `250 ≥` trade amount `100`
but the sizing-time price fetch fails (`none`): no market buy is submitted,
contrary to the claim that sufficient balance always leads to an order. -/
theorem buy_sufficient_balance_no_order_cex :
    trade_step 1 [⟨"USDT", 250, 0⟩] "BTCUSDT" 100 none [] = [] := by
  have hfree : getFree [⟨"USDT", 250, 0⟩] "USDT" = 250 := rfl
  simp only [trade_step, if_pos rfl, hfree]
  norm_num
  intro h
  exact absurd h (by norm_num [calculate_position_size])

/-- C6 (amended): on a Buy signal, if the free USDT balance is at least the
trade amount, the loop sizes the position and submits a market buy whenever
the sized quantity is positive (with zero quantity it makes no order call
and logs nothing); if the free balance is strictly below the trade amount,
no order call is made and an insufficient-balance reason is logged. -/
theorem trade_step_buy (bal : List RawBalance) (amt : ℚ) (sym : String)
    (fs : List SymbolFilter) (price : Option ℚ) :
    (amt ≤ getFree bal "USDT" →
      (0 < calculate_position_size price fs amt →
        trade_step 1 bal sym amt price fs =
          [.log (.buySignal (calculate_position_size price fs amt) sym),
           .order "BUY" (calculate_position_size price fs amt)]) ∧
      (¬ 0 < calculate_position_size price fs amt →
        trade_step 1 bal sym amt price fs = [])) ∧
    (getFree bal "USDT" < amt →
      trade_step 1 bal sym amt price fs = [.log .insufficientUsdt]) := by
  constructor
  · intro hbal
    constructor <;> intro hq <;> simp [trade_step, hbal, hq]
  · intro hbal
    simp [trade_step, not_le.mpr hbal]

/-- Witness for C6's amended theorem: the spec's scenario — balance `50`,
trade amount `100` — is skipped with the insufficient-balance log and no
order call. -/
theorem trade_step_buy_witness :
    trade_step 1 [⟨"USDT", 50, 0⟩] "BTCUSDT" 100 (some 10) [] =
      [.log .insufficientUsdt] :=
  (trade_step_buy [⟨"USDT", 50, 0⟩] 100 "BTCUSDT" [] (some 10)).2
    (by rw [show getFree [⟨"USDT", 50, 0⟩] "USDT" = 50 from rfl]; norm_num)

/-! ## C7 -/

/-- C7: on a Sell signal, if the free base-asset balance is strictly
positive the loop submits a market sell for exactly the entire free
base-asset balance; otherwise it makes no order call and logs a skip
reason. -/
theorem trade_step_sell (bal : List RawBalance) (amt : ℚ) (sym : String)
    (fs : List SymbolFilter) (price : Option ℚ) :
    (0 < getFree bal (sym.replace "USDT" "") →
      trade_step (-1) bal sym amt price fs =
        [.log (.sellSignal (getFree bal (sym.replace "USDT" "")) sym),
         .order "SELL" (getFree bal (sym.replace "USDT" ""))]) ∧
    (¬ 0 < getFree bal (sym.replace "USDT" "") →
      trade_step (-1) bal sym amt price fs =
        [.log (.noBalanceToSell (sym.replace "USDT" ""))]) := by
  constructor <;> intro h <;> simp [trade_step, h]

/-- Witness for C7: a free base-asset balance of `2` is sold in full. -/
theorem trade_step_sell_witness :
    trade_step (-1) [⟨"BTCUSDT".replace "USDT" "", 2, 0⟩] "BTCUSDT" 100 (some 10) [] =
      [.log (.sellSignal (getFree [⟨"BTCUSDT".replace "USDT" "", 2, 0⟩]
          ("BTCUSDT".replace "USDT" "")) "BTCUSDT"),
       .order "SELL" (getFree [⟨"BTCUSDT".replace "USDT" "", 2, 0⟩]
          ("BTCUSDT".replace "USDT" ""))] :=
  (trade_step_sell [⟨"BTCUSDT".replace "USDT" "", 2, 0⟩] 100 "BTCUSDT" [] (some 10)).1
    (by simp [getFree, dictFind])

/-! ## C10 -/

/-- C10: `get_account_balance` keeps an entry only if its free or locked
amount is strictly positive; an asset entirely absent from the mapping
reads as free balance `0`, so a Buy signal with no USDT entry is skipped as
insufficient balance (for any positive trade amount) and a Sell signal with
no base-asset entry is skipped with the nothing-to-sell log. -/
theorem balance_filter_and_absent_assets :
    (∀ (raw : List RawBalance) (b : RawBalance),
      b ∈ get_account_balance (.ok raw) → 0 < b.free ∨ 0 < b.locked) ∧
    (∀ (bal : List RawBalance) (a : String),
      (∀ b ∈ bal, b.asset ≠ a) → getFree bal a = 0) ∧
    (∀ (bal : List RawBalance) (amt : ℚ) (sym : String) (fs : List SymbolFilter)
      (price : Option ℚ), 0 < amt → (∀ b ∈ bal, b.asset ≠ "USDT") →
      trade_step 1 bal sym amt price fs = [.log .insufficientUsdt]) ∧
    (∀ (bal : List RawBalance) (amt : ℚ) (sym : String) (fs : List SymbolFilter)
      (price : Option ℚ), (∀ b ∈ bal, b.asset ≠ sym.replace "USDT" "") →
      trade_step (-1) bal sym amt price fs =
        [.log (.noBalanceToSell (sym.replace "USDT" ""))]) := by
  refine ⟨?_, getFree_of_absent, ?_, ?_⟩
  · intro raw b hb
    rw [get_account_balance, List.mem_filter] at hb
    have := hb.2
    simp only [Bool.or_eq_true, decide_eq_true_eq] at this
    exact this
  · intro bal amt sym fs price hamt habs
    have h0 : getFree bal "USDT" = 0 := getFree_of_absent bal _ habs
    simp [trade_step, h0, not_le.mpr hamt]
  · intro bal amt sym fs price habs
    have h0 : getFree bal (sym.replace "USDT" "") = 0 := getFree_of_absent bal _ habs
    simp [trade_step, h0]

/-- Witness for C10: a mapping holding only ETH — a Buy for BTCUSDT is
skipped as insufficient balance. -/
theorem balance_filter_and_absent_assets_witness :
    trade_step 1 [⟨"ETH", 5, 0⟩] "BTCUSDT" 100 (some 5) [] =
      [.log .insufficientUsdt] :=
  balance_filter_and_absent_assets.2.2.1 [⟨"ETH", 5, 0⟩] 100 "BTCUSDT" [] (some 5)
    (by norm_num) (by intro b hb; rcases List.mem_singleton.mp hb with rfl; decide)

/-! ## C2 -/

/-- C2 (code bug): the first cycle in which the price fetch fails crashes
`run_bot` instead of recovering.  `get_symbol_price` catches the
`BinanceAPIException` and returns `None`; formatting it at src/main.py:158
raises `TypeError`; the `except` handler logs the error and then reads the
local `signal` (src/main.py:192), which was never assigned, so an
`UnboundLocalError` escapes the loop — the claimed log-sleep-resume
behaviour only happens in cycles after a signal was first assigned (second
conjunct). -/
theorem run_bot_first_cycle_error_crash :
    run_cycle none ⟨true, [], none, none, none, []⟩ "BTCUSDT" 100
      = .crash true false ∧
    run_cycle (some 0) ⟨true, [], none, none, none, []⟩ "BTCUSDT" 100
      = .next (some 0) [] true (some 0) true :=
  ⟨rfl, rfl⟩

end TradingBot
